import Mathlib

/-!
Shallow embedding of the two concurrency primitives of the
`microsoft-agents-hosting-core` library:

* `ValueLock` / `SmartValueLock` from `utils/value_lock.py` — a value-based
  exclusivity lock and its time-windowed, amortized-eviction wrapper;
* the class-level signing-key cache of `JwtTokenValidator.get_key` from
  `authorization/jwt_token_validator.py`.

Python values (`Any`, with `None` as the null sentinel) are modelled as
`Option α`, where `none` stands for Python's `None`.  Timestamps
(`datetime.now().timestamp()` floats) are modelled as integers `Int`, passed
explicitly to every operation that reads the clock; the properties proved are
purely order-theoretic so this captures the float comparisons faithfully.
Python `set` becomes `Finset`; the `_added_times` dict becomes a `PyDict`
(key set plus valuation) and the `key_cache` dict an association list with
`List.lookup`; a dict access that would raise `KeyError` is modelled by an
`Option`-valued result (`none` = the interpreter raises).
-/

namespace AgentsLib

/-- Embeds `ValueLock` (value_lock.py lines 7-33): `_used_values` is the
Python set of currently held values. -/
structure ValueLock (α : Type) where
  usedValues : Finset (Option α)
  deriving DecidableEq

namespace ValueLock

variable {α : Type} [DecidableEq α]

/-- `ValueLock.__init__`: `self._used_values = initial_values if initial_values
is not None else set()`.  The optional argument is `Option`-valued; `none` is
the default `None`. -/
def init (initialValues : Option (Finset (Option α))) : ValueLock α :=
  ⟨initialValues.getD ∅⟩

/-- `ValueLock.release`: returns the underlying set and replaces it with a
fresh empty set. -/
def release (l : ValueLock α) : Finset (Option α) × ValueLock α :=
  (l.usedValues, ⟨∅⟩)

/-- `ValueLock.acquire`: returns `False` when the value is `None` or already
present, otherwise adds it and returns `True`. -/
def acquire (l : ValueLock α) (value : Option α) : Bool × ValueLock α :=
  if value = none ∨ value ∈ l.usedValues then
    (false, l)
  else
    (true, ⟨insert value l.usedValues⟩)

/-- `ValueLock.size`: `len(self._used_values)`. -/
def size (l : ValueLock α) : Nat :=
  l.usedValues.card

end ValueLock

/-- Evolution of a `ValueLock` under the public interface, starting from a
given state: reflexive closure of `acquire`/`release` steps. -/
inductive ValueLockEvolves {α : Type} [DecidableEq α] (l0 : ValueLock α) :
    ValueLock α → Prop
  | refl : ValueLockEvolves l0 l0
  | acquire {l : ValueLock α} (v : Option α) :
      ValueLockEvolves l0 l → ValueLockEvolves l0 (l.acquire v).2
  | release {l : ValueLock α} :
      ValueLockEvolves l0 l → ValueLockEvolves l0 (l.release).2

/-- A `ValueLock` state reachable through the public interface: construction
(empty or seeded from any initial set) followed by any sequence of `acquire`
and `release` calls. -/
def ValueLockReachable {α : Type} [DecidableEq α] (l : ValueLock α) : Prop :=
  ∃ initialValues : Option (Finset (Option α)),
    ValueLockEvolves (ValueLock.init initialValues) l

/-- A Python dict, modelled extensionally as its key set together with a
total valuation; `d[k]` is meaningful only for `k` in the domain. -/
structure PyDict (κ ν : Type) where
  dom : Finset κ
  val : κ → ν

namespace PyDict

variable {κ ν : Type} [DecidableEq κ]

/-- Dict lookup `d[k]`: `some` of the stored value when `k` is a key,
`none` when the access would raise `KeyError`. -/
def get (d : PyDict κ ν) (k : κ) : Option ν :=
  if k ∈ d.dom then some (d.val k) else none

/-- The empty dict `{}` (the valuation outside the empty domain is
irrelevant). -/
def empty [Inhabited ν] : PyDict κ ν :=
  ⟨∅, fun _ => default⟩

/-- Dict assignment `d[k] = v`. -/
def set (d : PyDict κ ν) (k : κ) (v : ν) : PyDict κ ν :=
  ⟨insert k d.dom, fun x => if x = k then v else d.val x⟩

/-- The comprehension `{k: d[k] for k in s}`: restriction of `d` to `s`
(meaningful when every element of `s` is a key of `d`, as the callers
ensure; otherwise Python would raise `KeyError`). -/
def restrict (d : PyDict κ ν) (s : Finset κ) : PyDict κ ν :=
  ⟨s, d.val⟩

/-- The dict built by `for k in s: d[k] = v` starting from the empty dict. -/
def const (s : Finset κ) (v : ν) : PyDict κ ν :=
  ⟨s, fun _ => v⟩

end PyDict

/-- Embeds `SmartValueLock` (value_lock.py lines 38-102): `_added_times`,
`_last_release_time`, the three configuration fields and the wrapped
`_value_lock`. -/
structure SmartValueLock (α : Type) where
  addedTimes : PyDict (Option α) Int
  lastReleaseTime : Int
  minLockDuration : Int
  sizeThreshold : Nat
  minCondReleaseInterval : Int
  valueLock : ValueLock α

namespace SmartValueLock

variable {α : Type} [DecidableEq α]

/-- The set of keys of `_added_times` (the domain of the Python dict). -/
def addedDomain (s : SmartValueLock α) : Finset (Option α) :=
  s.addedTimes.dom

/-- `SmartValueLock.__init__`.  `if initial_values:` is Python truthiness:
the seeded branch runs only when the argument is a non-empty set; in that
branch every seed value is given insertion time `_last_release_time` and the
inner lock is `ValueLock(initial_values)`. -/
def init (minLockDuration : Int) (sizeThreshold : Nat)
    (minCondReleaseInterval : Int) (initialValues : Option (Finset (Option α)))
    (now : Int) : SmartValueLock α :=
  match initialValues with
  | some s0 =>
    if s0 = ∅ then
      { addedTimes := PyDict.empty, lastReleaseTime := now,
        minLockDuration := minLockDuration, sizeThreshold := sizeThreshold,
        minCondReleaseInterval := minCondReleaseInterval,
        valueLock := ValueLock.init none }
    else
      { addedTimes := PyDict.const s0 now,
        lastReleaseTime := now,
        minLockDuration := minLockDuration, sizeThreshold := sizeThreshold,
        minCondReleaseInterval := minCondReleaseInterval,
        valueLock := ValueLock.init (some s0) }
  | none =>
      { addedTimes := PyDict.empty, lastReleaseTime := now,
        minLockDuration := minLockDuration, sizeThreshold := sizeThreshold,
        minCondReleaseInterval := minCondReleaseInterval,
        valueLock := ValueLock.init none }

/-- `SmartValueLock.release`: drains the inner lock, clears `_added_times`
and resets `_last_release_time` to the current time. -/
def release (s : SmartValueLock α) (now : Int) :
    Finset (Option α) × SmartValueLock α :=
  ((s.valueLock.release).1,
    { s with valueLock := (s.valueLock.release).2,
             addedTimes := PyDict.empty, lastReleaseTime := now })

/-- The retention test of `_conditional_release`:
`(ts - self._added_times[v]) < self._min_lock_duration`, with a missing key
(`KeyError`) mapped to `false`; callers guard against the missing-key case. -/
def keepEntry (addedTimes : PyDict (Option α) Int) (ts dur : Int)
    (v : Option α) : Bool :=
  match addedTimes.get v with
  | some t => decide (ts - t < dur)
  | none => false

/-- `SmartValueLock._conditional_release` at clock reading `ts`.  Returns
`none` exactly when the Python code would raise `KeyError` (a drained value
missing from `_added_times`); otherwise `some` of the updated state. -/
def conditionalRelease (s : SmartValueLock α) (ts : Int) :
    Option (SmartValueLock α) :=
  if ts - s.lastReleaseTime < s.minCondReleaseInterval ∨
      s.valueLock.size < s.sizeThreshold then
    some s
  else if ∀ v ∈ (s.valueLock.release).1, (s.addedTimes.get v).isSome = true then
    some { s with
      valueLock := ValueLock.init (some ((s.valueLock.release).1.filter
        (fun v => keepEntry s.addedTimes ts s.minLockDuration v = true))),
      addedTimes := s.addedTimes.restrict ((s.valueLock.release).1.filter
        (fun v => keepEntry s.addedTimes ts s.minLockDuration v = true)),
      lastReleaseTime := ts }
  else
    none

/-- `SmartValueLock.acquire`: on inner-lock success, record the insertion
time (clock reading `tAdd`), then run the conditional release (clock reading
`tCond`) and return `True`; on failure return `False` with no side effect. -/
def acquire (s : SmartValueLock α) (value : Option α) (tAdd tCond : Int) :
    Option (Bool × SmartValueLock α) :=
  match s.valueLock.acquire value with
  | (true, l') =>
      (({ s with valueLock := l',
                 addedTimes := s.addedTimes.set value tAdd
        } : SmartValueLock α).conditionalRelease tCond).map
        (fun s2 => (true, s2))
  | (false, _) => some (false, s)

/-- `SmartValueLock.size`: delegates to the inner lock. -/
def size (s : SmartValueLock α) : Nat :=
  s.valueLock.size

end SmartValueLock

/-- A `SmartValueLock` state reachable through construction (any parameters
and optional initial values) followed by any sequence of `acquire` and
`release` calls that do not raise. -/
inductive SmartReachable {α : Type} [DecidableEq α] : SmartValueLock α → Prop
  | init (minLockDuration : Int) (sizeThreshold : Nat)
      (minCondReleaseInterval : Int)
      (initialValues : Option (Finset (Option α))) (now : Int) :
      SmartReachable (SmartValueLock.init minLockDuration sizeThreshold
        minCondReleaseInterval initialValues now)
  | acquire {s : SmartValueLock α} (v : Option α) (tAdd tCond : Int)
      (b : Bool) {s' : SmartValueLock α} :
      SmartReachable s → s.acquire v tAdd tCond = some (b, s') →
      SmartReachable s'
  | release {s : SmartValueLock α} (now : Int) :
      SmartReachable s → SmartReachable (s.release now).2

/-- Embeds the class-level state of `JwtTokenValidator`
(jwt_token_validator.py lines 19-21): the shared `key_cache` dict, the shared
`last_refresh_time`, and whether the shared `asyncio.Lock` is currently
held. -/
structure KeyCacheState (Key : Type) where
  keyCache : List (String × Key)
  lastRefreshTime : Int
  lockHeld : Bool

/-- The class attributes' initial values: empty cache, `last_refresh_time =
0.0`, lock free. -/
def initialKeyCacheState {Key : Type} : KeyCacheState Key :=
  { keyCache := [], lastRefreshTime := 0, lockHeld := false }

/-- Python dict assignment `cls.key_cache[kid] = key`. -/
def dictInsertK {Key : Type} (d : List (String × Key)) (k : String)
    (v : Key) : List (String × Key) :=
  (k, v) :: d.filter (fun p => decide (p.1 ≠ k))

/-- The fast-path condition of `get_key` (line 67):
`kid in cls.key_cache and cls.last_refresh_time + 3600 > now`. -/
def usesFastPath {Key : Type} (s : KeyCacheState Key) (kid : String)
    (now : Int) : Bool :=
  (s.keyCache.lookup kid).isSome && decide (s.lastRefreshTime + 3600 > now)

/-- The `else` branch of `get_key` (lines 69-75): `async with cls.lock:`
acquires the mutex and releases it on every exit path; inside, re-check the
cache, otherwise run the external fetch and store its result.  `fetch` is the
outcome of `jwks_client.get_signing_key(kid)` (`error` = the call raises);
the third component of the result records whether that external call was
invoked. -/
def getKeySlowPath {Key E : Type} (fetch : Except E Key) (kid : String)
    (s : KeyCacheState Key) : Except E Key × KeyCacheState Key × Bool :=
  match ({ s with lockHeld := true } : KeyCacheState Key).keyCache.lookup kid with
  | some k => (.ok k, { s with lockHeld := false }, false)
  | none =>
    match fetch with
    | .error e => (.error e, { s with lockHeld := false }, true)
    | .ok key =>
        (.ok key,
          { s with keyCache := dictInsertK s.keyCache kid key,
                   lockHeld := false },
          true)

/-- `JwtTokenValidator.get_key` (lines 64-75) at clock reading `now`: fast
path when `kid` is cached and the global TTL has not lapsed, otherwise the
mutex-guarded slow path. -/
def getKey {Key E : Type} (fetch : Except E Key) (now : Int) (kid : String)
    (s : KeyCacheState Key) : Except E Key × KeyCacheState Key × Bool :=
  match s.keyCache.lookup kid with
  | some k =>
    if s.lastRefreshTime + 3600 > now then (.ok k, s, false)
    else getKeySlowPath fetch kid s
  | none => getKeySlowPath fetch kid s

/-- Key-cache states reachable from the initial class state by any sequence
of `get_key` calls (arbitrary clock readings, key ids and fetch outcomes). -/
inductive KeyCacheReachable (Key E : Type) : KeyCacheState Key → Prop
  | init : KeyCacheReachable Key E initialKeyCacheState
  | step {s : KeyCacheState Key} (fetch : Except E Key) (now : Int)
      (kid : String) :
      KeyCacheReachable Key E s →
      KeyCacheReachable Key E (getKey fetch now kid s).2.1

/-- Program counter of one `get_key` caller in the two-caller interleaving
model.  asyncio tasks run atomically between `await` points; the `await`
points of `get_key` are the mutex acquisition and the dispatched external
fetch. -/
inductive TaskPC (Key : Type) where
  | start
  | waitLock
  | holdingLock
  | fetching
  | done (k : Key)
  deriving DecidableEq

/-- Whether a task currently holds the mutex (is inside the critical
section). -/
def TaskPC.inCrit {Key : Type} : TaskPC Key → Bool
  | .holdingLock => true
  | .fetching => true
  | _ => false

/-- Whether a task currently has an external fetch in flight. -/
def TaskPC.isFetching {Key : Type} : TaskPC Key → Bool
  | .fetching => true
  | _ => false

/-- Global state of the two-caller race: the shared class state, the number
of external fetches started so far, and each task's program counter. -/
structure RaceState (Key : Type) where
  shared : KeyCacheState Key
  fetchCount : Nat
  pcA : TaskPC Key
  pcB : TaskPC Key

/-- One atomic step of a single `get_key` caller for key id `kid`, where the
external client deterministically returns `fetchKey kid`.  Transitions follow
the source: fast-path check, mutex acquisition, double-check under the mutex,
fetch, store-and-return. -/
inductive TaskStep {Key : Type} (fetchKey : String → Key) (kid : String) :
    KeyCacheState Key → Nat → TaskPC Key →
    KeyCacheState Key → Nat → TaskPC Key → Prop
  | fastHit (s : KeyCacheState Key) (n : Nat) (now : Int) (k : Key)
      (hk : s.keyCache.lookup kid = some k)
      (ht : s.lastRefreshTime + 3600 > now) :
      TaskStep fetchKey kid s n .start s n (.done k)
  | fastMiss (s : KeyCacheState Key) (n : Nat) (now : Int)
      (h : usesFastPath s kid now = false) :
      TaskStep fetchKey kid s n .start s n .waitLock
  | acquireLock (s : KeyCacheState Key) (n : Nat) (h : s.lockHeld = false) :
      TaskStep fetchKey kid s n .waitLock
        { s with lockHeld := true } n .holdingLock
  | recheckHit (s : KeyCacheState Key) (n : Nat) (k : Key)
      (hk : s.keyCache.lookup kid = some k) :
      TaskStep fetchKey kid s n .holdingLock
        { s with lockHeld := false } n (.done k)
  | startFetch (s : KeyCacheState Key) (n : Nat)
      (hk : s.keyCache.lookup kid = none) :
      TaskStep fetchKey kid s n .holdingLock s (n + 1) .fetching
  | finishFetch (s : KeyCacheState Key) (n : Nat) :
      TaskStep fetchKey kid s n .fetching
        { s with keyCache := dictInsertK s.keyCache kid (fetchKey kid),
                 lockHeld := false }
        n (.done (fetchKey kid))

/-- Interleaving: either task takes one atomic step. -/
inductive RaceStep {Key : Type} (fetchKey : String → Key) (kid : String) :
    RaceState Key → RaceState Key → Prop
  | stepA {r : RaceState Key} {s' : KeyCacheState Key} {n' : Nat}
      {pc' : TaskPC Key} :
      TaskStep fetchKey kid r.shared r.fetchCount r.pcA s' n' pc' →
      RaceStep fetchKey kid r ⟨s', n', pc', r.pcB⟩
  | stepB {r : RaceState Key} {s' : KeyCacheState Key} {n' : Nat}
      {pc' : TaskPC Key} :
      TaskStep fetchKey kid r.shared r.fetchCount r.pcB s' n' pc' →
      RaceStep fetchKey kid r ⟨s', n', r.pcA, pc'⟩

/-- Race states reachable from a given start state by interleaved steps. -/
inductive RaceReachable {Key : Type} (fetchKey : String → Key) (kid : String)
    (r0 : RaceState Key) : RaceState Key → Prop
  | refl : RaceReachable fetchKey kid r0 r0
  | tail {r r' : RaceState Key} :
      RaceReachable fetchKey kid r0 r → RaceStep fetchKey kid r r' →
      RaceReachable fetchKey kid r0 r'

/-- Inductive invariant of the two-caller race on a cold `kid`: mutual
exclusion, the fetch count tracks whether a fetch started, and every
completed caller observed the one fetched key. -/
def RaceInv {Key : Type} (fetchKey : String → Key) (kid : String)
    (r : RaceState Key) : Prop :=
  r.shared.lockHeld = (r.pcA.inCrit || r.pcB.inCrit) ∧
  ¬(r.pcA.inCrit = true ∧ r.pcB.inCrit = true) ∧
  r.fetchCount =
    (if r.pcA.isFetching || r.pcB.isFetching ||
        (r.shared.keyCache.lookup kid).isSome then 1 else 0) ∧
  (∀ k, r.pcA = .done k →
    k = fetchKey kid ∧ (r.shared.keyCache.lookup kid).isSome = true) ∧
  (∀ k, r.pcB = .done k →
    k = fetchKey kid ∧ (r.shared.keyCache.lookup kid).isSome = true) ∧
  (∀ k, r.shared.keyCache.lookup kid = some k → k = fetchKey kid)

end AgentsLib

namespace AgentsLib

namespace ValueLock

variable {α : Type} [DecidableEq α]

theorem acquire_none (l : ValueLock α) : l.acquire none = (false, l) := by
  simp [acquire]

theorem acquire_mem (l : ValueLock α) (v : Option α) (hv : v ∈ l.usedValues) :
    l.acquire v = (false, l) := by
  simp [acquire, hv]

theorem acquire_fresh (l : ValueLock α) (v : Option α) (hv : v ≠ none)
    (hm : v ∉ l.usedValues) :
    l.acquire v = (true, ⟨insert v l.usedValues⟩) := by
  simp [acquire, hv, hm]

end ValueLock

end AgentsLib

/-- C4: for every value `v` distinct from the `None` sentinel and every
`ValueLock` state not holding `v`, `acquire v` inserts `v` and returns `true`;
any subsequent `acquire v` on the resulting state (and more generally on any
state holding `v`) returns `false` and leaves the state unchanged; and
`acquire none` always returns `false` and leaves `size` unchanged. -/
theorem C4_valueLock_acquire {α : Type} [DecidableEq α]
    (l : AgentsLib.ValueLock α) (v : Option α)
    (hv : v ≠ none) (hm : v ∉ l.usedValues) :
    ((l.acquire v).1 = true ∧
      (l.acquire v).2.usedValues = insert v l.usedValues) ∧
    (∀ l' : AgentsLib.ValueLock α, v ∈ l'.usedValues → l'.acquire v = (false, l')) ∧
    ((l.acquire v).2.acquire v = (false, (l.acquire v).2)) ∧
    (∀ l' : AgentsLib.ValueLock α,
      l'.acquire none = (false, l') ∧ (l'.acquire none).2.size = l'.size) := by
  have h := AgentsLib.ValueLock.acquire_fresh l v hv hm
  refine ⟨⟨by rw [h], by rw [h]⟩, ?_, ?_, ?_⟩
  · intro l' hl'
    exact AgentsLib.ValueLock.acquire_mem l' v hl'
  · apply AgentsLib.ValueLock.acquire_mem
    rw [h]
    exact Finset.mem_insert_self v l.usedValues
  · intro l'
    exact ⟨AgentsLib.ValueLock.acquire_none l', by rw [AgentsLib.ValueLock.acquire_none l']⟩

/-- Witness for C4 at a concrete input: the empty lock over `Nat` and the
value `some 7`. -/
theorem C4_valueLock_acquire_witness :
    ((some 7 : Option Nat) ≠ none ∧
      some 7 ∉ (AgentsLib.ValueLock.init none : AgentsLib.ValueLock Nat).usedValues) ∧
    (((AgentsLib.ValueLock.init none : AgentsLib.ValueLock Nat).acquire (some 7)).1 = true ∧
      ((AgentsLib.ValueLock.init none : AgentsLib.ValueLock Nat).acquire
        (some 7)).2.usedValues =
        insert (some 7)
          (AgentsLib.ValueLock.init none : AgentsLib.ValueLock Nat).usedValues) :=
  ⟨⟨by decide, by decide⟩,
    (C4_valueLock_acquire (AgentsLib.ValueLock.init none) (some 7)
      (by decide) (by decide)).1⟩

/-- C5: `release` returns exactly the set of values held immediately before
the call, leaves `size = 0` immediately afterwards, and on the empty lock it
is idempotent, returning the empty set. -/
theorem C5_valueLock_release {α : Type} [DecidableEq α]
    (l : AgentsLib.ValueLock α) :
    (l.release).1 = l.usedValues ∧
    (l.release).2.size = 0 ∧
    (AgentsLib.ValueLock.init none : AgentsLib.ValueLock α).release =
      (∅, AgentsLib.ValueLock.init none) ∧
    ((l.release).2.release = (∅, (l.release).2)) :=
  ⟨rfl, rfl, rfl, rfl⟩

namespace AgentsLib

namespace PyDict

theorem get_isSome_iff {κ ν : Type} [DecidableEq κ] (d : PyDict κ ν) (k : κ) :
    (d.get k).isSome = true ↔ k ∈ d.dom := by
  unfold get
  split <;> simp_all

end PyDict

namespace SmartValueLock

variable {α : Type} [DecidableEq α]

theorem keepEntry_eq_true_iff (d : PyDict (Option α) Int) (ts dur : Int)
    (v : Option α) :
    keepEntry d ts dur v = true ↔ ∃ t, d.get v = some t ∧ ts - t < dur := by
  unfold keepEntry
  cases h : d.get v <;> simp [h]

theorem conditionalRelease_not_triggered (s : SmartValueLock α) (ts : Int)
    (h : ts - s.lastReleaseTime < s.minCondReleaseInterval ∨
      s.valueLock.size < s.sizeThreshold) :
    s.conditionalRelease ts = some s := by
  unfold conditionalRelease
  rw [if_pos h]

theorem conditionalRelease_triggered (s : SmartValueLock α) (ts : Int)
    (hdom : s.addedDomain = s.valueLock.usedValues)
    (h : ¬(ts - s.lastReleaseTime < s.minCondReleaseInterval ∨
      s.valueLock.size < s.sizeThreshold)) :
    s.conditionalRelease ts = some { s with
      valueLock := ValueLock.init (some ((s.valueLock.release).1.filter
        (fun v => keepEntry s.addedTimes ts s.minLockDuration v = true))),
      addedTimes := s.addedTimes.restrict ((s.valueLock.release).1.filter
        (fun v => keepEntry s.addedTimes ts s.minLockDuration v = true)),
      lastReleaseTime := ts } := by
  have hdom' : s.addedTimes.dom = s.valueLock.usedValues := hdom
  have hall : ∀ v ∈ (s.valueLock.release).1, (s.addedTimes.get v).isSome = true := by
    intro v hv
    rw [PyDict.get_isSome_iff, hdom']
    exact hv
  unfold conditionalRelease
  rw [if_neg h, if_pos hall]

theorem conditionalRelease_dom (s : SmartValueLock α) (ts : Int)
    (hdom : s.addedDomain = s.valueLock.usedValues) :
    ∃ s', s.conditionalRelease ts = some s' ∧
      s'.addedDomain = s'.valueLock.usedValues := by
  by_cases h : ts - s.lastReleaseTime < s.minCondReleaseInterval ∨
      s.valueLock.size < s.sizeThreshold
  · exact ⟨s, conditionalRelease_not_triggered s ts h, hdom⟩
  · exact ⟨_, conditionalRelease_triggered s ts hdom h, rfl⟩

theorem acquire_dom (s : SmartValueLock α) (v : Option α) (tAdd tCond : Int)
    (hdom : s.addedDomain = s.valueLock.usedValues) :
    ∃ b s', s.acquire v tAdd tCond = some (b, s') ∧
      s'.addedDomain = s'.valueLock.usedValues := by
  unfold acquire
  by_cases hc : v = none ∨ v ∈ s.valueLock.usedValues
  · have hacq : s.valueLock.acquire v = (false, s.valueLock) := by
      unfold ValueLock.acquire
      rw [if_pos hc]
    rw [hacq]
    exact ⟨false, s, rfl, hdom⟩
  · have hacq : s.valueLock.acquire v = (true, ⟨insert v s.valueLock.usedValues⟩) := by
      unfold ValueLock.acquire
      rw [if_neg hc]
    rw [hacq]
    have hmid : ({ s with valueLock := ⟨insert v s.valueLock.usedValues⟩, addedTimes := s.addedTimes.set v tAdd } : SmartValueLock α).addedDomain = ({ s with valueLock := ⟨insert v s.valueLock.usedValues⟩, addedTimes := s.addedTimes.set v tAdd } : SmartValueLock α).valueLock.usedValues := by
      show insert v s.addedTimes.dom = insert v s.valueLock.usedValues
      rw [show s.addedTimes.dom = s.valueLock.usedValues from hdom]
    obtain ⟨s', hcr, hdom'⟩ := conditionalRelease_dom _ tCond hmid
    refine ⟨true, s', ?_, hdom'⟩
    show (({ s with valueLock := ⟨insert v s.valueLock.usedValues⟩, addedTimes := s.addedTimes.set v tAdd } : SmartValueLock α).conditionalRelease tCond).map (fun s2 => (true, s2)) = some (true, s')
    rw [hcr]
    rfl

end SmartValueLock

end AgentsLib

/-- C7: in every `SmartValueLock` state reachable through construction and
any sequence of `acquire`/`release` calls, the domain of the `_added_times`
mapping is exactly the set of values held by the inner `ValueLock`. -/
theorem C7_addedTimes_domain_invariant {α : Type} [DecidableEq α]
    (s : AgentsLib.SmartValueLock α) (h : AgentsLib.SmartReachable s) :
    s.addedDomain = s.valueLock.usedValues := by
  induction h with
  | init d th i iv now =>
    cases iv with
    | none => rfl
    | some s0 =>
      by_cases h0 : s0 = ∅
      · simp only [AgentsLib.SmartValueLock.init]
        rw [if_pos h0]
        rfl
      · simp only [AgentsLib.SmartValueLock.init]
        rw [if_neg h0]
        rfl
  | acquire v tAdd tCond b hs heq ih =>
    obtain ⟨b', s'', heq', hdom'⟩ :=
      AgentsLib.SmartValueLock.acquire_dom _ v tAdd tCond ih
    rw [heq] at heq'
    injection heq' with hp
    injection hp with hb hs2
    rw [← hs2] at hdom'
    exact hdom'
  | release now hs ih => rfl

/-- Witness for C7 at a concrete reachable state: construction seeded with
`{some 3}`. -/
theorem C7_addedTimes_domain_invariant_witness :
    (AgentsLib.SmartValueLock.init 5 2 1 (some ({some 3} : Finset (Option Nat)))
      0).addedDomain =
    (AgentsLib.SmartValueLock.init 5 2 1 (some ({some 3} : Finset (Option Nat)))
      0).valueLock.usedValues :=
  C7_addedTimes_domain_invariant _
    (AgentsLib.SmartReachable.init 5 2 1 (some {some 3}) 0)

/-- C6 counterexample: the claim quantifies over construction seeded from an
arbitrary initial set, but `ValueLock.__init__` stores the given set verbatim,
so seeding with a set containing the `None` sentinel yields a reachable state
whose locked set contains the sentinel. -/
theorem C6_counterexample_none_seeded :
    ¬ (∀ l : AgentsLib.ValueLock Nat, AgentsLib.ValueLockReachable l →
        none ∉ l.usedValues) := by
  intro h
  exact h (AgentsLib.ValueLock.init (some {none}))
    ⟨some {none}, AgentsLib.ValueLockEvolves.refl⟩ (by decide)

/-- C6 amended: provided the state evolved (by any sequence of `acquire` and
`release` calls) from a start state whose locked set does not contain the
`None` sentinel — in particular from a construction whose seed set excludes
it, or an empty construction — the sentinel is never an element of the locked
set, and the locked set holds no duplicate entries. -/
theorem C6_amended_no_sentinel {α : Type} [DecidableEq α]
    (l0 l : AgentsLib.ValueLock α) (h0 : none ∉ l0.usedValues)
    (hev : AgentsLib.ValueLockEvolves l0 l) :
    none ∉ l.usedValues ∧ l.usedValues.val.Nodup := by
  refine ⟨?_, l.usedValues.nodup⟩
  induction hev with
  | refl => exact h0
  | acquire v hev ih =>
    unfold AgentsLib.ValueLock.acquire
    split
    · exact ih
    · rename_i hcond
      intro hmem
      rcases Finset.mem_insert.1 hmem with h | h
      · exact hcond (Or.inl h.symm)
      · exact ih h
  | release hev ih =>
    exact Finset.not_mem_empty none

/-- Witness for C6 (amended) at a concrete input: empty construction followed
by one `acquire (some 1)`. -/
theorem C6_amended_no_sentinel_witness :
    (none ∉ (AgentsLib.ValueLock.init none : AgentsLib.ValueLock Nat).usedValues) ∧
    (none ∉ ((AgentsLib.ValueLock.init none : AgentsLib.ValueLock Nat).acquire
        (some 1)).2.usedValues ∧
      ((AgentsLib.ValueLock.init none : AgentsLib.ValueLock Nat).acquire
        (some 1)).2.usedValues.val.Nodup) :=
  ⟨by decide,
    C6_amended_no_sentinel (AgentsLib.ValueLock.init none) _ (by decide)
      (AgentsLib.ValueLockEvolves.acquire (some 1)
        AgentsLib.ValueLockEvolves.refl)⟩

/-- C1: `_conditional_release` (invoked at the end of every successful
`acquire`, so its size check sees the value just acquired) performs the
eviction if and only if `ts - lastReleaseTime ≥ minCondReleaseInterval` and
the current locked count is `≥ sizeThreshold`; when it triggers it drains the
inner lock, retains exactly the drained values whose age `ts - addedAt[v]` is
strictly below `minLockDuration` (their `addedAt` entries and nothing else
surviving with them), and sets `lastReleaseTime := ts` regardless of how many
survived.  The last conjunct ties the internal step to `acquire`. -/
theorem C1_conditional_release_spec {α : Type} [DecidableEq α]
    (s : AgentsLib.SmartValueLock α) (ts : Int)
    (hdom : s.addedDomain = s.valueLock.usedValues) :
    (¬ (s.minCondReleaseInterval ≤ ts - s.lastReleaseTime ∧
        s.sizeThreshold ≤ s.valueLock.size) →
      s.conditionalRelease ts = some s) ∧
    ((s.minCondReleaseInterval ≤ ts - s.lastReleaseTime ∧
        s.sizeThreshold ≤ s.valueLock.size) →
      ∃ s', s.conditionalRelease ts = some s' ∧
        (∀ v, v ∈ s'.valueLock.usedValues ↔
          v ∈ s.valueLock.usedValues ∧
            ∃ t, s.addedTimes.get v = some t ∧ ts - t < s.minLockDuration) ∧
        s'.addedDomain = s'.valueLock.usedValues ∧
        s'.lastReleaseTime = ts) ∧
    (∀ v tAdd, (s.valueLock.acquire v).1 = true →
      s.acquire v tAdd ts =
        (({ s with valueLock := (s.valueLock.acquire v).2, addedTimes := s.addedTimes.set v tAdd } : AgentsLib.SmartValueLock α).conditionalRelease ts).map
          (fun s2 => (true, s2))) := by
  refine ⟨?_, ?_, ?_⟩
  · intro h
    apply AgentsLib.SmartValueLock.conditionalRelease_not_triggered
    rcases not_and_or.mp h with h1 | h1
    · exact Or.inl (by omega)
    · exact Or.inr (by omega)
  · intro h
    have hng : ¬(ts - s.lastReleaseTime < s.minCondReleaseInterval ∨
        s.valueLock.size < s.sizeThreshold) := by
      push_neg
      exact ⟨h.1, h.2⟩
    refine ⟨_, AgentsLib.SmartValueLock.conditionalRelease_triggered s ts hdom hng,
      ?_, rfl, rfl⟩
    intro v
    show v ∈ (s.valueLock.release).1.filter
        (fun v => AgentsLib.SmartValueLock.keepEntry s.addedTimes ts
          s.minLockDuration v = true) ↔ _
    rw [Finset.mem_filter, AgentsLib.SmartValueLock.keepEntry_eq_true_iff]
    exact Iff.rfl
  · intro v tAdd hacq
    unfold AgentsLib.SmartValueLock.acquire
    cases h : s.valueLock.acquire v with
    | mk b l' =>
      cases b with
      | false =>
        rw [h] at hacq
        exact absurd hacq (by simp)
      | true =>
        rfl

/-- Witness for C1 at a concrete input: a lock holding `some 1` (inserted at
time 0) with `minLockDuration = 5`, `sizeThreshold = 1`,
`minCondReleaseInterval = 2`, conditionally released at time 10; the trigger
conditions hold. -/
theorem C1_conditional_release_spec_witness :
    ((2:Int) ≤ 10 - 0 ∧ (1:Nat) ≤ AgentsLib.ValueLock.size (⟨{some 1}⟩ : AgentsLib.ValueLock Nat)) ∧
    (∃ s', AgentsLib.SmartValueLock.conditionalRelease
        (⟨AgentsLib.PyDict.const {some 1} 0, 0, 5, 1, 2, ⟨{some 1}⟩⟩ :
          AgentsLib.SmartValueLock Nat) 10 = some s' ∧
      (∀ v, v ∈ s'.valueLock.usedValues ↔
        v ∈ (⟨AgentsLib.PyDict.const {some 1} 0, 0, 5, 1, 2, ⟨{some 1}⟩⟩ :
            AgentsLib.SmartValueLock Nat).valueLock.usedValues ∧
          ∃ t, (⟨AgentsLib.PyDict.const {some 1} 0, 0, 5, 1, 2, ⟨{some 1}⟩⟩ :
            AgentsLib.SmartValueLock Nat).addedTimes.get v = some t ∧
            10 - t < 5) ∧
      s'.addedDomain = s'.valueLock.usedValues ∧
      s'.lastReleaseTime = 10) :=
  ⟨⟨by decide, by decide⟩,
    (C1_conditional_release_spec
      (⟨AgentsLib.PyDict.const {some 1} 0, 0, 5, 1, 2, ⟨{some 1}⟩⟩ :
        AgentsLib.SmartValueLock Nat) 10 rfl).2.1 ⟨by decide, by decide⟩⟩

namespace AgentsLib

theorem lockHeld_false_eta {Key : Type} (s : KeyCacheState Key)
    (h : s.lockHeld = false) :
    ({ s with lockHeld := false } : KeyCacheState Key) = s := by
  cases s with
  | mk kc lrt lh =>
    cases h
    rfl

theorem getKeySlowPath_hit {Key E : Type} (fetch : Except E Key) (kid : String)
    (s : KeyCacheState Key) (k : Key) (hk : s.keyCache.lookup kid = some k) :
    getKeySlowPath fetch kid s = (.ok k, { s with lockHeld := false }, false) := by
  unfold getKeySlowPath
  simp only [show ({ s with lockHeld := true } : KeyCacheState Key).keyCache =
    s.keyCache from rfl, hk]

theorem getKeySlowPath_miss_error {Key E : Type} (e : E) (kid : String)
    (s : KeyCacheState Key) (hk : s.keyCache.lookup kid = none) :
    getKeySlowPath (Except.error e) kid s =
      (.error e, { s with lockHeld := false }, true) := by
  unfold getKeySlowPath
  simp only [show ({ s with lockHeld := true } : KeyCacheState Key).keyCache =
    s.keyCache from rfl, hk]

theorem getKeySlowPath_miss_ok {Key E : Type} (key : Key) (kid : String)
    (s : KeyCacheState Key) (hk : s.keyCache.lookup kid = none) :
    getKeySlowPath (Except.ok key : Except E Key) kid s =
      (.ok key,
        { s with keyCache := dictInsertK s.keyCache kid key, lockHeld := false },
        true) := by
  unfold getKeySlowPath
  simp only [show ({ s with lockHeld := true } : KeyCacheState Key).keyCache =
    s.keyCache from rfl, hk]

theorem getKey_fast {Key E : Type} (fetch : Except E Key) (now : Int)
    (kid : String) (s : KeyCacheState Key) (k : Key)
    (hk : s.keyCache.lookup kid = some k) (ht : s.lastRefreshTime + 3600 > now) :
    getKey fetch now kid s = (.ok k, s, false) := by
  unfold getKey
  simp only [hk]
  rw [if_pos ht]

theorem getKey_slow_of_expired {Key E : Type} (fetch : Except E Key) (now : Int)
    (kid : String) (s : KeyCacheState Key) (k : Key)
    (hk : s.keyCache.lookup kid = some k)
    (ht : ¬s.lastRefreshTime + 3600 > now) :
    getKey fetch now kid s = getKeySlowPath fetch kid s := by
  unfold getKey
  simp only [hk]
  rw [if_neg ht]

theorem getKey_slow_of_missing {Key E : Type} (fetch : Except E Key) (now : Int)
    (kid : String) (s : KeyCacheState Key)
    (hk : s.keyCache.lookup kid = none) :
    getKey fetch now kid s = getKeySlowPath fetch kid s := by
  unfold getKey
  simp only [hk]

theorem getKeySlowPath_lastRefreshTime_frame {Key E : Type}
    (fetch : Except E Key) (kid : String) (s : KeyCacheState Key) :
    ((getKeySlowPath fetch kid s).2.1).lastRefreshTime = s.lastRefreshTime := by
  cases hk : s.keyCache.lookup kid with
  | some k => rw [getKeySlowPath_hit fetch kid s k hk]
  | none =>
    cases fetch with
    | error e => rw [getKeySlowPath_miss_error e kid s hk]
    | ok key => rw [getKeySlowPath_miss_ok key kid s hk]

theorem getKey_lastRefreshTime_frame {Key E : Type} (fetch : Except E Key)
    (now : Int) (kid : String) (s : KeyCacheState Key) :
    ((getKey fetch now kid s).2.1).lastRefreshTime = s.lastRefreshTime := by
  cases hk : s.keyCache.lookup kid with
  | some k =>
    by_cases ht : s.lastRefreshTime + 3600 > now
    · rw [getKey_fast fetch now kid s k hk ht]
    · rw [getKey_slow_of_expired fetch now kid s k hk ht]
      exact getKeySlowPath_lastRefreshTime_frame fetch kid s
  | none =>
    rw [getKey_slow_of_missing fetch now kid s hk]
    exact getKeySlowPath_lastRefreshTime_frame fetch kid s

end AgentsLib

/-- C2: a `get_key` call for a `kid` already present in the cache returns the
previously cached key, leaves the state unchanged, and never invokes the
external key-retrieval client, for every clock reading `now` — in particular
long after the TTL window — because even the mutex-guarded slow path re-checks
membership and returns the cached value as-is. -/
theorem C2_cached_key_no_fetch {Key E : Type} (fetch : Except E Key)
    (now : Int) (kid : String) (s : AgentsLib.KeyCacheState Key) (k : Key)
    (hk : s.keyCache.lookup kid = some k) (hl : s.lockHeld = false) :
    AgentsLib.getKey fetch now kid s = (.ok k, s, false) := by
  by_cases ht : s.lastRefreshTime + 3600 > now
  · exact AgentsLib.getKey_fast fetch now kid s k hk ht
  · rw [AgentsLib.getKey_slow_of_expired fetch now kid s k hk ht,
      AgentsLib.getKeySlowPath_hit fetch kid s k hk,
      AgentsLib.lockHeld_false_eta s hl]

/-- Witness for C2 at a concrete input: a cache holding `kid ↦ 42` queried at
time `999999`, far past the TTL window. -/
theorem C2_cached_key_no_fetch_witness :
    (([("kid", 42)] : List (String × Nat)).lookup "kid" = some 42 ∧
      (⟨[("kid", 42)], 0, false⟩ : AgentsLib.KeyCacheState Nat).lockHeld = false) ∧
    AgentsLib.getKey (Except.ok 7 : Except Unit Nat) 999999 "kid"
      (⟨[("kid", 42)], 0, false⟩ : AgentsLib.KeyCacheState Nat) =
      (.ok 42, (⟨[("kid", 42)], 0, false⟩ : AgentsLib.KeyCacheState Nat), false) :=
  ⟨⟨by decide, rfl⟩,
    C2_cached_key_no_fetch (Except.ok 7) 999999 "kid"
      (⟨[("kid", 42)], 0, false⟩ : AgentsLib.KeyCacheState Nat) 42
      (by decide) rfl⟩

/-- C3 counterexample: a slow-path call that fetches and stores the
previously-missing `"kidA"` at time `5000` leaves `last_refresh_time` at `0`,
not at the time of the (re)population — the code never assigns
`last_refresh_time` at all. -/
theorem C3_counterexample_no_refresh_update :
    (AgentsLib.getKey (Except.ok 42 : Except Unit Nat) 5000 "kidA"
        AgentsLib.initialKeyCacheState).2.2 = true ∧
    ((AgentsLib.getKey (Except.ok 42 : Except Unit Nat) 5000 "kidA"
        AgentsLib.initialKeyCacheState).2.1).keyCache.lookup "kidA" = some 42 ∧
    ((AgentsLib.getKey (Except.ok 42 : Except Unit Nat) 5000 "kidA"
        AgentsLib.initialKeyCacheState).2.1).lastRefreshTime = 0 ∧
    ¬((0 : Int) = 5000) := by
  refine ⟨rfl, rfl, rfl, by decide⟩

/-- C3 amended: `last_refresh_time` is never assigned by any operation —
every `get_key` call, including one that fetches and stores a
previously-missing key id, leaves it unchanged (so it keeps its initial value
forever). -/
theorem C3_amended_lastRefreshTime_never_updated {Key E : Type}
    (fetch : Except E Key) (now : Int) (kid : String)
    (s : AgentsLib.KeyCacheState Key) :
    ((AgentsLib.getKey fetch now kid s).2.1).lastRefreshTime =
      s.lastRefreshTime :=
  AgentsLib.getKey_lastRefreshTime_frame fetch now kid s

/-- C8: when the external key-retrieval call raises during the slow path,
`get_key` propagates the error to the caller, the mutex is released on that
exit path, and the cache mapping is left unmodified. -/
theorem C8_fetch_error_propagates {Key E : Type} (e : E) (now : Int)
    (kid : String) (s : AgentsLib.KeyCacheState Key)
    (hk : s.keyCache.lookup kid = none) (hl : s.lockHeld = false) :
    AgentsLib.getKey (Except.error e) now kid s = (.error e, s, true) ∧
    ((AgentsLib.getKey (Except.error e : Except E Key) now kid s).2.1).lockHeld
      = false ∧
    ((AgentsLib.getKey (Except.error e : Except E Key) now kid s).2.1).keyCache
      = s.keyCache := by
  have h : AgentsLib.getKey (Except.error e : Except E Key) now kid s =
      (.error e, s, true) := by
    rw [AgentsLib.getKey_slow_of_missing (Except.error e) now kid s hk,
      AgentsLib.getKeySlowPath_miss_error e kid s hk,
      AgentsLib.lockHeld_false_eta s hl]
  exact ⟨h, by rw [h]; exact hl, by rw [h]⟩

/-- Witness for C8 at a concrete input: the initial (empty, unlocked) cache
and a failing fetch. -/
theorem C8_fetch_error_propagates_witness :
    ((AgentsLib.initialKeyCacheState : AgentsLib.KeyCacheState Nat).keyCache.lookup
        "kid" = none ∧
      (AgentsLib.initialKeyCacheState : AgentsLib.KeyCacheState Nat).lockHeld =
        false) ∧
    AgentsLib.getKey (Except.error () : Except Unit Nat) 0 "kid"
        AgentsLib.initialKeyCacheState =
      (.error (), AgentsLib.initialKeyCacheState, true) :=
  ⟨⟨rfl, rfl⟩,
    (C8_fetch_error_propagates () 0 "kid"
      (AgentsLib.initialKeyCacheState : AgentsLib.KeyCacheState Nat)
      rfl rfl).1⟩

/-- C10: from the initial class state, `last_refresh_time` stays `0` across
every sequence of `get_key` calls; hence for any call with `now ≥ 3600` the
fast-path condition is false and the call — even a repeat lookup of a cached
key id — takes the mutex-guarded slow path. -/
theorem C10_lastRefreshTime_stuck_at_zero {Key E : Type}
    (s : AgentsLib.KeyCacheState Key) (h : AgentsLib.KeyCacheReachable Key E s) :
    s.lastRefreshTime = 0 ∧
    (∀ now kid, (3600 : Int) ≤ now → AgentsLib.usesFastPath s kid now = false) ∧
    (∀ (fetch : Except E Key) now kid, (3600 : Int) ≤ now →
      AgentsLib.getKey fetch now kid s = AgentsLib.getKeySlowPath fetch kid s) := by
  have hzero : s.lastRefreshTime = 0 := by
    induction h with
    | init => rfl
    | step fetch now kid hs ih =>
      rw [AgentsLib.getKey_lastRefreshTime_frame]
      exact ih
  refine ⟨hzero, ?_, ?_⟩
  · intro now kid hnow
    have hlt : ¬(s.lastRefreshTime + 3600 > now) := by omega
    unfold AgentsLib.usesFastPath
    simp [hlt]
  · intro fetch now kid hnow
    have hlt : ¬(s.lastRefreshTime + 3600 > now) := by omega
    cases hk : s.keyCache.lookup kid with
    | some k => exact AgentsLib.getKey_slow_of_expired fetch now kid s k hk hlt
    | none => exact AgentsLib.getKey_slow_of_missing fetch now kid s hk

/-- Witness for C10 at a concrete reachable state: one `get_key` call on the
initial state, queried again at time `4000`. -/
theorem C10_lastRefreshTime_stuck_at_zero_witness :
    ((AgentsLib.getKey (Except.ok 42 : Except Unit Nat) 4000 "kidA"
        AgentsLib.initialKeyCacheState).2.1).lastRefreshTime = 0 ∧
    AgentsLib.usesFastPath
      ((AgentsLib.getKey (Except.ok 42 : Except Unit Nat) 4000 "kidA"
        AgentsLib.initialKeyCacheState).2.1) "kidA" 4000 = false :=
  ⟨(C10_lastRefreshTime_stuck_at_zero _
      (AgentsLib.KeyCacheReachable.step (Except.ok 42) 4000 "kidA"
        AgentsLib.KeyCacheReachable.init)).1,
    (C10_lastRefreshTime_stuck_at_zero _
      (AgentsLib.KeyCacheReachable.step (Except.ok 42) 4000 "kidA"
        AgentsLib.KeyCacheReachable.init)).2.1 4000 "kidA" (by decide)⟩

namespace AgentsLib

@[simp]
theorem inCrit_start {Key : Type} : (TaskPC.start : TaskPC Key).inCrit = false := rfl

@[simp]
theorem inCrit_waitLock {Key : Type} : (TaskPC.waitLock : TaskPC Key).inCrit = false := rfl

@[simp]
theorem inCrit_holdingLock {Key : Type} : (TaskPC.holdingLock : TaskPC Key).inCrit = true := rfl

@[simp]
theorem inCrit_fetching {Key : Type} : (TaskPC.fetching : TaskPC Key).inCrit = true := rfl

@[simp]
theorem inCrit_done {Key : Type} (k : Key) : (TaskPC.done k).inCrit = false := rfl

@[simp]
theorem isFetching_start {Key : Type} : (TaskPC.start : TaskPC Key).isFetching = false := rfl

@[simp]
theorem isFetching_waitLock {Key : Type} : (TaskPC.waitLock : TaskPC Key).isFetching = false := rfl

@[simp]
theorem isFetching_holdingLock {Key : Type} : (TaskPC.holdingLock : TaskPC Key).isFetching = false := rfl

@[simp]
theorem isFetching_fetching {Key : Type} : (TaskPC.fetching : TaskPC Key).isFetching = true := rfl

@[simp]
theorem isFetching_done {Key : Type} (k : Key) : (TaskPC.done k).isFetching = false := rfl

theorem isFetching_false_of_inCrit_false {Key : Type} (pc : TaskPC Key)
    (h : pc.inCrit = false) : pc.isFetching = false := by
  cases pc <;> simp_all

theorem dictInsertK_lookup_self {Key : Type} (d : List (String × Key))
    (k : String) (v : Key) : (dictInsertK d k v).lookup k = some v := by
  unfold dictInsertK
  simp [List.lookup]

theorem TaskStep_preserves {Key : Type} (fetchKey : String → Key) (kid : String)
    {s s' : KeyCacheState Key} {n n' : Nat} {p p' : TaskPC Key}
    (q : TaskPC Key)
    (hstep : TaskStep fetchKey kid s n p s' n' p')
    (h1 : s.lockHeld = (p.inCrit || q.inCrit))
    (h2 : ¬(p.inCrit = true ∧ q.inCrit = true))
    (h3 : n = if p.isFetching || q.isFetching ||
      (s.keyCache.lookup kid).isSome then 1 else 0)
    (h4 : ∀ k, p = .done k →
      k = fetchKey kid ∧ (s.keyCache.lookup kid).isSome = true)
    (h5 : ∀ k, q = .done k →
      k = fetchKey kid ∧ (s.keyCache.lookup kid).isSome = true)
    (h6 : ∀ k, s.keyCache.lookup kid = some k → k = fetchKey kid) :
    s'.lockHeld = (p'.inCrit || q.inCrit) ∧
    ¬(p'.inCrit = true ∧ q.inCrit = true) ∧
    n' = (if p'.isFetching || q.isFetching ||
      (s'.keyCache.lookup kid).isSome then 1 else 0) ∧
    (∀ k, p' = .done k →
      k = fetchKey kid ∧ (s'.keyCache.lookup kid).isSome = true) ∧
    (∀ k, q = .done k →
      k = fetchKey kid ∧ (s'.keyCache.lookup kid).isSome = true) ∧
    (∀ k, s'.keyCache.lookup kid = some k → k = fetchKey kid) := by
  cases hstep with
  | fastHit now k hk ht =>
    refine ⟨by simpa using h1, by simp, by simpa using h3, ?_, h5, h6⟩
    intro k' hk'
    injection hk' with he
    subst he
    exact ⟨h6 k hk, by rw [hk]; rfl⟩
  | fastMiss now h =>
    refine ⟨by simpa using h1, by simp, by simpa using h3, ?_, h5, h6⟩
    exact fun k h' => nomatch h'
  | acquireLock h =>
    have hq : q.inCrit = false := by simpa [h] using h1.symm
    refine ⟨by simp, by simp [hq], by simpa using h3, ?_, h5, h6⟩
    exact fun k h' => nomatch h'
  | recheckHit k hk =>
    have hq : q.inCrit = false := by
      rcases Bool.eq_false_or_eq_true q.inCrit with h | h
      · exact absurd ⟨rfl, h⟩ h2
      · exact h
    refine ⟨by simp [hq], by simp, by simpa using h3, ?_, ?_, h6⟩
    · intro k' hk'
      injection hk' with he
      subst he
      exact ⟨h6 k hk, by simp [hk]⟩
    · intro k' hkq
      exact ⟨(h5 k' hkq).1, by simpa using (h5 k' hkq).2⟩
  | startFetch hk =>
    have hq : q.inCrit = false := by
      rcases Bool.eq_false_or_eq_true q.inCrit with h | h
      · exact absurd ⟨rfl, h⟩ h2
      · exact h
    have hqf : q.isFetching = false := isFetching_false_of_inCrit_false q hq
    have hn : n = 0 := by
      rw [h3]
      simp [hqf, hk]
    refine ⟨by simpa using h1, by simp [hq], ?_, ?_, ?_, h6⟩
    · rw [hn]
      simp
    · exact fun k h' => nomatch h'
    · intro k hkq
      exact absurd (h5 k hkq).2 (by simp [hk])
  | finishFetch =>
    have hq : q.inCrit = false := by
      rcases Bool.eq_false_or_eq_true q.inCrit with h | h
      · exact absurd ⟨rfl, h⟩ h2
      · exact h
    have hlook : (dictInsertK s.keyCache kid (fetchKey kid)).lookup kid =
        some (fetchKey kid) :=
      dictInsertK_lookup_self s.keyCache kid (fetchKey kid)
    have hn : n = 1 := by
      rw [h3]
      simp
    refine ⟨by simp [hq], by simp, ?_, ?_, ?_, ?_⟩
    · rw [hn]
      simp [hlook]
    · intro k hkk
      injection hkk with he
      subst he
      exact ⟨rfl, by simp [hlook]⟩
    · intro k hkq
      exact ⟨(h5 k hkq).1, by simp [hlook]⟩
    · intro k hkk
      exact (Option.some.inj (hlook.symm.trans hkk)).symm

end AgentsLib

namespace AgentsLib

theorem RaceInv_preserved {Key : Type} (fetchKey : String → Key) (kid : String)
    {r r' : RaceState Key} (hstep : RaceStep fetchKey kid r r')
    (hinv : RaceInv fetchKey kid r) : RaceInv fetchKey kid r' := by
  obtain ⟨sh, n, pA, pB⟩ := r
  obtain ⟨hlock, hmutex, hcount, hdA, hdB, hcache⟩ := hinv
  dsimp only at hlock hmutex hcount hdA hdB hcache
  cases hstep with
  | @stepA sA nA pcA' ht =>
    dsimp only at ht
    obtain ⟨H1, H2, H3, H4, H5, H6⟩ :=
      TaskStep_preserves fetchKey kid pB ht hlock hmutex hcount hdA hdB hcache
    exact ⟨H1, H2, H3, H4, H5, H6⟩
  | @stepB sB nB pcB' ht =>
    dsimp only at ht
    have hlock' : sh.lockHeld = (pB.inCrit || pA.inCrit) := by
      rw [hlock, Bool.or_comm]
    have hmutex' : ¬(pB.inCrit = true ∧ pA.inCrit = true) :=
      fun h => hmutex ⟨h.2, h.1⟩
    have hcount' : n = if pB.isFetching || pA.isFetching ||
        (sh.keyCache.lookup kid).isSome then 1 else 0 := by
      rw [hcount, Bool.or_comm pA.isFetching pB.isFetching]
    obtain ⟨H1, H2, H3, H4, H5, H6⟩ :=
      TaskStep_preserves fetchKey kid pA ht hlock' hmutex' hcount' hdB hdA hcache
    dsimp only
    refine ⟨?_, fun h => H2 ⟨h.2, h.1⟩, ?_, H5, H4, H6⟩
    · rw [H1, Bool.or_comm]
    · rw [H3, Bool.or_comm pcB'.isFetching pA.isFetching]

theorem RaceInv_of_reachable {Key : Type} (fetchKey : String → Key)
    (kid : String) {r0 r : RaceState Key} (h0 : RaceInv fetchKey kid r0)
    (hr : RaceReachable fetchKey kid r0 r) : RaceInv fetchKey kid r := by
  induction hr with
  | refl => exact h0
  | tail hr hstep ih => exact RaceInv_preserved fetchKey kid hstep ih

end AgentsLib

/-- C9: in the two-caller interleaving model of `get_key` on a key id that is
not initially cached (the external client deterministically returning
`fetchKey kid`), every interleaving in which both callers complete has
performed exactly one external fetch, and both callers received that one
fetched key. -/
theorem C9_single_fetch_both_same_key {Key : Type} (fetchKey : String → Key)
    (kid : String) (c0 : List (String × Key)) (lrt0 : Int)
    (hc0 : c0.lookup kid = none) (r : AgentsLib.RaceState Key) (ka kb : Key)
    (hr : AgentsLib.RaceReachable fetchKey kid
      ⟨⟨c0, lrt0, false⟩, 0, .start, .start⟩ r)
    (hA : r.pcA = .done ka) (hB : r.pcB = .done kb) :
    ka = fetchKey kid ∧ kb = fetchKey kid ∧ r.fetchCount = 1 := by
  have h0 : AgentsLib.RaceInv fetchKey kid
      ⟨⟨c0, lrt0, false⟩, 0, .start, .start⟩ := by
    refine ⟨rfl, by simp, by simp [hc0], ?_, ?_, ?_⟩
    · exact fun k h => nomatch h
    · exact fun k h => nomatch h
    · intro k hk
      exact absurd hk (by simp [hc0])
  have hinv := AgentsLib.RaceInv_of_reachable fetchKey kid h0 hr
  obtain ⟨-, -, hcount, hdA, hdB, -⟩ := hinv
  obtain ⟨hka, hsome⟩ := hdA ka hA
  obtain ⟨hkb, -⟩ := hdB kb hB
  refine ⟨hka, hkb, ?_⟩
  rw [hcount, hA, hB]
  simp [hsome]

/-- Witness for C9: a concrete interleaving in which caller A misses the fast
path, takes the mutex, fetches and stores, then caller B takes the mutex and
observes the populated cache via the double-check; both end with the fetched
key and the fetch count is one. -/
theorem C9_single_fetch_both_same_key_witness :
    (([] : List (String × Nat)).lookup "k" = none) ∧
    ((0 : Nat) = (fun _ : String => (0 : Nat)) "k" ∧
      (0 : Nat) = (fun _ : String => (0 : Nat)) "k" ∧
      (⟨⟨[("k", 0)], 0, false⟩, 1, .done 0, .done 0⟩ :
        AgentsLib.RaceState Nat).fetchCount = 1) := by
  refine ⟨rfl, ?_⟩
  have t0 : AgentsLib.RaceReachable (fun _ : String => (0 : Nat)) "k"
      ⟨⟨[], 0, false⟩, 0, .start, .start⟩ ⟨⟨[], 0, false⟩, 0, .start, .start⟩ :=
    AgentsLib.RaceReachable.refl
  have t1 := AgentsLib.RaceReachable.tail t0 (AgentsLib.RaceStep.stepA
    (AgentsLib.TaskStep.fastMiss ⟨[], 0, false⟩ 0 4000 (by decide)))
  have t2 := AgentsLib.RaceReachable.tail t1 (AgentsLib.RaceStep.stepB
    (AgentsLib.TaskStep.fastMiss ⟨[], 0, false⟩ 0 4000 (by decide)))
  have t3 := AgentsLib.RaceReachable.tail t2 (AgentsLib.RaceStep.stepA
    (AgentsLib.TaskStep.acquireLock ⟨[], 0, false⟩ 0 rfl))
  have t4 := AgentsLib.RaceReachable.tail t3 (AgentsLib.RaceStep.stepA
    (AgentsLib.TaskStep.startFetch ⟨[], 0, true⟩ 0 rfl))
  have t5 := AgentsLib.RaceReachable.tail t4 (AgentsLib.RaceStep.stepA
    (AgentsLib.TaskStep.finishFetch ⟨[], 0, true⟩ 1))
  have t6 := AgentsLib.RaceReachable.tail t5 (AgentsLib.RaceStep.stepB
    (AgentsLib.TaskStep.acquireLock ⟨[("k", 0)], 0, false⟩ 1 rfl))
  have t7 := AgentsLib.RaceReachable.tail t6 (AgentsLib.RaceStep.stepB
    (AgentsLib.TaskStep.recheckHit ⟨[("k", 0)], 0, true⟩ 1 0 (by decide)))
  exact C9_single_fetch_both_same_key (fun _ : String => (0 : Nat)) "k" [] 0
    rfl _ 0 0 t7 rfl rfl
